import Mathlib

/-!
Verification of the technical-indicator engine and rule-based strategy
classifier of `app.py` (functions `fetch_yf_history`, lines 107-119, and
`get_strategy_suggestion`, lines 68-96).

Prices are modelled as exact rationals (`ℚ`); a pandas `NaN` cell is
modelled as `none : Option ℚ`, so every derived column is a function
`ℕ → Option ℚ` over the list of closing prices.  Float comparisons
against `NaN` are `False` in Python, which the `oLt` comparison below
mirrors by returning `false` whenever either operand is `none`.

The 20-bar rolling standard deviation (`std20`, line 109) is the square
root of the rolling sample variance (pandas `ddof=1`); a square root of a
rational is in general irrational, so `lowerAt` takes the square-root
function as an explicit parameter `sqrtFn` and every theorem about the
lower band is proved for an arbitrary `sqrtFn` (in particular the true
square root).  No claim depends on the numeric value of the standard
deviation, only on definedness and causality of the band.
-/

/-- One cell of the `Close` column: `df['Close'][i]`, `none` out of range. -/
def closeAt (cs : List ℚ) (i : ℕ) : Option ℚ := cs[i]?

/-- The indices `i-n+1, …, i` covered by a pandas fixed rolling window of
size `n` ending at row `i` (truncated subtraction; the guard `n ≤ i + 1`
in `rollMean` makes the truncation irrelevant where it matters). -/
def windowList (n i : ℕ) : List ℕ := (List.range n).map (fun k => i + 1 - n + k)

/-- Pandas `series.rolling(n).mean()` at row `i` with the default
`min_periods = n`: defined only when the window is full and free of
`NaN`, in which case it is the arithmetic mean of the window. -/
def rollMean (n : ℕ) (f : ℕ → Option ℚ) (i : ℕ) : Option ℚ :=
  if n ≤ i + 1 ∧ ∀ j ∈ windowList n i, (f j).isSome then
    some ((((windowList n i).map f).filterMap id).sum / (n : ℚ))
  else none

/-- Pandas `series.rolling(n).var()` (the square of `rolling(n).std()`,
line 109) at row `i`: the sample variance (`ddof = 1`) of the window. -/
def rollVar (n : ℕ) (f : ℕ → Option ℚ) (i : ℕ) : Option ℚ :=
  if n ≤ i + 1 ∧ ∀ j ∈ windowList n i, (f j).isSome then
    some
      (let v := ((windowList n i).map f).filterMap id
       let m := v.sum / (n : ℚ)
       (v.map (fun x => (x - m) ^ 2)).sum / ((n : ℚ) - 1))
  else none

/-- Line 107: `df['SMA20'] = df['Close'].rolling(20).mean()`. -/
def SMA20At (cs : List ℚ) (i : ℕ) : Option ℚ := rollMean 20 (closeAt cs) i

/-- Line 108: `df['SMA60'] = df['Close'].rolling(60).mean()`. -/
def SMA60At (cs : List ℚ) (i : ℕ) : Option ℚ := rollMean 60 (closeAt cs) i

/-- Lines 109-110: `df['Lower'] = df['SMA20'] - (std20 * 2)` where
`std20 = df['Close'].rolling(20).std()`, i.e. `sqrtFn` applied to the
rolling sample variance; `sqrtFn` abstracts the square root (see header). -/
def lowerAt (sqrtFn : ℚ → ℚ) (cs : List ℚ) (i : ℕ) : Option ℚ :=
  match SMA20At cs i, rollVar 20 (closeAt cs) i with
  | some m, some v => some (m - sqrtFn v * 2)
  | _, _ => none

/-- Line 111: `delta = df['Close'].diff()`; `NaN` at row 0. -/
def deltaAt (cs : List ℚ) (i : ℕ) : Option ℚ :=
  if i = 0 then none
  else
    match closeAt cs i, closeAt cs (i - 1) with
    | some a, some b => some (a - b)
    | _, _ => none

/-- Line 112: `gain = delta.clip(lower=0).rolling(14).mean()`. -/
def gainAt (cs : List ℚ) (i : ℕ) : Option ℚ :=
  rollMean 14 (fun j => (deltaAt cs j).map (fun d => max d 0)) i

/-- Line 113: `loss = -delta.clip(upper=0).rolling(14).mean()`; the unary
minus applies to the rolling mean of `min(delta, 0)`. -/
def lossAt (cs : List ℚ) (i : ℕ) : Option ℚ :=
  (rollMean 14 (fun j => (deltaAt cs j).map (fun d => min d 0)) i).map (fun m => -m)

/-- The `1e-9` guard of line 114, exactly. -/
def rsiEps : ℚ := 1 / 1000000000

/-- Line 114: `df['RSI'] = 100 - (100 / (1 + (gain/(loss+1e-9))))`. -/
def rsiAt (cs : List ℚ) (i : ℕ) : Option ℚ :=
  match gainAt cs i, lossAt cs i with
  | some g, some l => some (100 - 100 / (1 + g / (l + rsiEps)))
  | _, _ => none

/-- Smoothing factor of `ewm(span=s, adjust=False)`: `2 / (s + 1)`. -/
def emaAlpha (s : ℚ) : ℚ := 2 / (s + 1)

/-- Pandas `series.ewm(span=s, adjust=False).mean()` at row `i`: seeded with the
first sample, then `y[i] = α·x[i] + (1-α)·y[i-1]`. -/
def emaAt (a : ℚ) (f : ℕ → Option ℚ) : ℕ → Option ℚ
  | 0 => f 0
  | i + 1 =>
    match f (i + 1), emaAt a f i with
    | some x, some p => some (x * a + p * (1 - a))
    | _, _ => none

/-- Lines 115-117: `df['MACD'] = exp1 - exp2` with `exp1`/`exp2` the
12- and 26-span EMAs of `Close`. -/
def macdAt (cs : List ℚ) (i : ℕ) : Option ℚ :=
  match emaAt (emaAlpha 12) (closeAt cs) i, emaAt (emaAlpha 26) (closeAt cs) i with
  | some a, some b => some (a - b)
  | _, _ => none

/-- Line 118: `df['Signal'] = df['MACD'].ewm(span=9, adjust=False).mean()`. -/
def signalAt (cs : List ℚ) (i : ℕ) : Option ℚ := emaAt (emaAlpha 9) (macdAt cs) i

/-- Line 119: `df['Hist'] = df['MACD'] - df['Signal']`. -/
def histAt (cs : List ℚ) (i : ℕ) : Option ℚ :=
  match macdAt cs i, signalAt cs i with
  | some m, some s => some (m - s)
  | _, _ => none

/-- The 4-tuple returned by `get_strategy_suggestion`: label, display
color, advisory html and short note.  The html is abridged to its static
headline and the note to its static tail; the `{rsi:.1f}` numeric
interpolations of the source are presentation-layer string formatting and
carry no decision content. -/
structure Signal where
  label : String
  color : String
  html : String
  note : String
deriving DecidableEq

/-- Line 70: the "insufficient data" tuple (its html is fully static). -/
def insufficientSignal : Signal :=
  { label := "資料不足", color := "#9e9e9e",
    html := "<span>資料不足以產生訊號</span>", note := "" }

/-- Line 88: the "extreme panic" tuple. -/
def panicSignal : Signal :=
  { label := "極度恐慌", color := "#d32f2f",
    html := "⚠️ 極度恐慌 (RSI < 25)", note := "市場情緒悲觀。" }

/-- Line 90: the "golden buy" tuple (html headline and note are static). -/
def goldenSignal : Signal :=
  { label := "黃金買訊", color := "#2e7d32",
    html := "🔥 強力買進訊號", note := "多重訊號支撐。" }

/-- Line 92: the "overheated" tuple. -/
def overheatedSignal : Signal :=
  { label := "高檔過熱", color := "#ef6c00",
    html := "⛔ 高檔過熱 (RSI > 75)", note := "短線過熱。" }

/-- Line 94: the "bullish continuation" tuple. -/
def bullishSignal : Signal :=
  { label := "多頭續抱", color := "#1976d2",
    html := "📈 多頭排列", note := "股價動能強勁。" }

/-- Line 96: the default "consolidating" tuple. -/
def consolidatingSignal : Signal :=
  { label := "觀望整理", color := "#757575",
    html := "☕ 盤整中", note := "無明確方向。" }

/-- One row of the enriched frame, the projection of `df` onto the
columns `get_strategy_suggestion` reads (`Close` and the five derived
columns); derived cells may be `NaN` (`none`). -/
structure EnrichedRow where
  close : ℚ
  rsi : Option ℚ
  hist : Option ℚ
  lower : Option ℚ
  sma20 : Option ℚ
  sma60 : Option ℚ
deriving DecidableEq

/-- A throw-away row used only as the (unreachable) default of `List.getD`. -/
def dummyRow : EnrichedRow :=
  { close := 0, rsi := none, hist := none, lower := none, sma20 := none, sma60 := none }

/-- Python float `<` lifted to possibly-`NaN` cells: any comparison with
`NaN` is `False`. -/
def oLt (x y : Option ℚ) : Bool :=
  match x, y with
  | some a, some b => decide (a < b)
  | _, _ => false

/-- Lines 68-96, `get_strategy_suggestion(df)`: `None` and frames that
are empty or shorter than 26 rows yield the "insufficient data" tuple;
otherwise the five rules fire in source order on the last and
second-to-last rows. -/
def getStrategySuggestion (df : Option (List EnrichedRow)) : Signal :=
  match df with
  | none => insufficientSignal
  | some rows =>
    if rows.isEmpty ∨ rows.length < 26 then insufficientSignal
    else
      let lastRow := rows.getD (rows.length - 1) dummyRow
      let prevRow := rows.getD (rows.length - 2) dummyRow
      let currPrice := lastRow.close
      let rsi := lastRow.rsi
      let macdHist := lastRow.hist
      let prevMacdHist := prevRow.hist
      let bbLower := lastRow.lower
      let sma20 := lastRow.sma20
      let sma60 := lastRow.sma60
      let isPanic := oLt rsi (some 25)
      let isOversold := oLt rsi (some 35)
      let isBuyZone := oLt (some currPrice) (bbLower.map (fun b => b * 1.02))
      let macdTurnUp := oLt macdHist (some 0) && oLt prevMacdHist macdHist
      let isBullishTrend := oLt sma20 (some currPrice) && oLt sma60 sma20
      if isPanic then panicSignal
      else if isOversold && isBuyZone && macdTurnUp then goldenSignal
      else if oLt (some 75) rsi then overheatedSignal
      else if isBullishTrend && oLt (some 0) macdHist then bullishSignal
      else consolidatingSignal

/-- The enrichment of lines 107-119 as a frame: row `i` carries the close
together with the five derived cells the classifier reads. -/
def enrich (sqrtFn : ℚ → ℚ) (cs : List ℚ) : List EnrichedRow :=
  (List.range cs.length).map (fun i =>
    { close := cs.getD i 0
      rsi := rsiAt cs i
      hist := histAt cs i
      lower := lowerAt sqrtFn cs i
      sma20 := SMA20At cs i
      sma60 := SMA60At cs i })

/-- Modelled from the spec: the decision table of section 4.2 / claim C1,
rows 1-5 in order, first match wins, on the latest and second-latest
enriched rows (a comparison with an undefined field is false, as for the
source's `NaN` floats).  Stated separately from `getStrategySuggestion`
so that the classifier can be proved to refine the spec's table. -/
def specRuleTable (lastRow prevRow : EnrichedRow) : Signal :=
  if oLt lastRow.rsi (some 25) then panicSignal
  else if oLt lastRow.rsi (some 35) &&
      oLt (some lastRow.close) (lastRow.lower.map (fun b => b * 1.02)) &&
      (oLt lastRow.hist (some 0) && oLt prevRow.hist lastRow.hist) then goldenSignal
  else if oLt (some 75) lastRow.rsi then overheatedSignal
  else if (oLt lastRow.sma20 (some lastRow.close) && oLt lastRow.sma60 lastRow.sma20) &&
      oLt (some 0) lastRow.hist then bullishSignal
  else consolidatingSignal

/-- A 15-bar flat price series (constant close 100). -/
def flat15 : List ℚ := List.replicate 15 100

/-- A 30-bar flat price series (constant close 100). -/
def flat30 : List ℚ := List.replicate 30 100

/-- A 16-bar strictly rising series with unit steps. -/
def rising16 : List ℚ := [0, 1, 2, 3, 4, 5, 6, 7, 8, 9, 10, 11, 12, 13, 14, 15]

lemma mem_windowList {n i j : ℕ} : j ∈ windowList n i ↔ ∃ k, k < n ∧ i + 1 - n + k = j := by
  simp [windowList]

lemma windowList_le {n i j : ℕ} (hn : n ≤ i + 1) (hj : j ∈ windowList n i) : j ≤ i := by
  obtain ⟨k, hk, rfl⟩ := mem_windowList.mp hj
  omega

lemma closeAt_isSome {cs : List ℚ} {j : ℕ} : (closeAt cs j).isSome ↔ j < cs.length := by
  unfold closeAt
  constructor
  · intro h
    by_contra hlt
    rw [List.getElem?_eq_none (by omega)] at h
    simp at h
  · intro h
    rw [List.getElem?_eq_getElem h]
    rfl

lemma rollMean_isSome_iff {n i : ℕ} {f : ℕ → Option ℚ} :
    (rollMean n f i).isSome ↔ (n ≤ i + 1 ∧ ∀ j ∈ windowList n i, (f j).isSome) := by
  unfold rollMean
  split
  · rename_i hc
    simpa using hc
  · rename_i hc
    simpa using hc

lemma rollVar_isSome_iff {n i : ℕ} {f : ℕ → Option ℚ} :
    (rollVar n f i).isSome ↔ (n ≤ i + 1 ∧ ∀ j ∈ windowList n i, (f j).isSome) := by
  unfold rollVar
  split
  · rename_i hc
    simpa using hc
  · rename_i hc
    simpa using hc

lemma closeRollMean_isSome_iff {cs : List ℚ} {n i : ℕ} (h : i < cs.length) :
    (rollMean n (closeAt cs) i).isSome ↔ n ≤ i + 1 := by
  rw [rollMean_isSome_iff]
  constructor
  · exact fun hc => hc.1
  · intro h1
    refine ⟨h1, fun j hj => closeAt_isSome.mpr ?_⟩
    have := windowList_le h1 hj
    omega

lemma deltaAt_isSome {cs : List ℚ} {j : ℕ} :
    (deltaAt cs j).isSome ↔ (1 ≤ j ∧ j < cs.length) := by
  unfold deltaAt
  rcases Nat.eq_zero_or_pos j with h0 | h0
  · subst h0
    simp
  · rw [if_neg (by omega)]
    by_cases hj : j < cs.length
    · obtain ⟨a, ha⟩ := Option.isSome_iff_exists.mp (closeAt_isSome.mpr hj)
      obtain ⟨b, hb⟩ :=
        Option.isSome_iff_exists.mp (closeAt_isSome.mpr (show j - 1 < cs.length by omega))
      rw [ha, hb]
      simp only [Option.isSome_some, true_iff]
      omega
    · have ha : closeAt cs j = none := by
        rcases hA : closeAt cs j with _ | a
        · rfl
        · exact absurd (closeAt_isSome.mp (by rw [hA]; rfl)) hj
      rw [ha]
      rcases hB : closeAt cs (j - 1) with _ | b <;> simp [hj]

lemma gainAt_isSome_iff {cs : List ℚ} {i : ℕ} (h : i < cs.length) :
    (gainAt cs i).isSome ↔ 14 ≤ i := by
  unfold gainAt
  rw [rollMean_isSome_iff]
  constructor
  · rintro ⟨h1, h2⟩
    have hmem : i + 1 - 14 ∈ windowList 14 i := mem_windowList.mpr ⟨0, by omega, by omega⟩
    have hs := h2 _ hmem
    rw [Option.isSome_map'] at hs
    have := deltaAt_isSome.mp hs
    omega
  · intro h14
    refine ⟨by omega, fun j hj => ?_⟩
    obtain ⟨k, hk, rfl⟩ := mem_windowList.mp hj
    rw [Option.isSome_map']
    exact deltaAt_isSome.mpr ⟨by omega, by omega⟩

lemma lossAt_isSome_iff {cs : List ℚ} {i : ℕ} (h : i < cs.length) :
    (lossAt cs i).isSome ↔ 14 ≤ i := by
  unfold lossAt
  rw [Option.isSome_map', rollMean_isSome_iff]
  constructor
  · rintro ⟨h1, h2⟩
    have hmem : i + 1 - 14 ∈ windowList 14 i := mem_windowList.mpr ⟨0, by omega, by omega⟩
    have hs := h2 _ hmem
    rw [Option.isSome_map'] at hs
    have := deltaAt_isSome.mp hs
    omega
  · intro h14
    refine ⟨by omega, fun j hj => ?_⟩
    obtain ⟨k, hk, rfl⟩ := mem_windowList.mp hj
    rw [Option.isSome_map']
    exact deltaAt_isSome.mpr ⟨by omega, by omega⟩

lemma rsiAt_isSome_iff {cs : List ℚ} {i : ℕ} (h : i < cs.length) :
    (rsiAt cs i).isSome ↔ 14 ≤ i := by
  unfold rsiAt
  rcases hg : gainAt cs i with _ | g <;> rcases hl : lossAt cs i with _ | l
  · simp only [Option.isSome_none, Bool.false_eq_true, false_iff]
    intro h14
    have := (gainAt_isSome_iff h).mpr h14
    rw [hg] at this
    simp at this
  · simp only [Option.isSome_none, Bool.false_eq_true, false_iff]
    intro h14
    have := (gainAt_isSome_iff h).mpr h14
    rw [hg] at this
    simp at this
  · simp only [Option.isSome_none, Bool.false_eq_true, false_iff]
    intro h14
    have := (lossAt_isSome_iff h).mpr h14
    rw [hl] at this
    simp at this
  · simp only [Option.isSome_some, true_iff]
    exact (gainAt_isSome_iff h).mp (by rw [hg]; rfl)

lemma emaAt_isSome {a : ℚ} {f : ℕ → Option ℚ} :
    ∀ {i : ℕ}, (∀ j, j ≤ i → (f j).isSome) → (emaAt a f i).isSome
  | 0, h => by
    have := h 0 (le_refl 0)
    simpa [emaAt] using this
  | i + 1, h => by
    obtain ⟨x, hx⟩ := Option.isSome_iff_exists.mp (h (i + 1) (le_refl _))
    obtain ⟨p, hp⟩ :=
      Option.isSome_iff_exists.mp
        (emaAt_isSome (fun j hj => h j (le_trans hj (Nat.le_succ i))))
    rw [emaAt, hx, hp]
    rfl

lemma macdAt_isSome {cs : List ℚ} {i : ℕ} (h : i < cs.length) : (macdAt cs i).isSome := by
  unfold macdAt
  obtain ⟨a, ha⟩ :=
    Option.isSome_iff_exists.mp
      (emaAt_isSome (a := emaAlpha 12) (f := closeAt cs) (i := i) (fun j hj => closeAt_isSome.mpr (by omega)))
  obtain ⟨b, hb⟩ :=
    Option.isSome_iff_exists.mp
      (emaAt_isSome (a := emaAlpha 26) (f := closeAt cs) (i := i) (fun j hj => closeAt_isSome.mpr (by omega)))
  rw [ha, hb]
  rfl

lemma signalAt_isSome {cs : List ℚ} {i : ℕ} (h : i < cs.length) : (signalAt cs i).isSome := by
  unfold signalAt
  exact emaAt_isSome (fun j hj => macdAt_isSome (lt_of_le_of_lt hj h))

lemma histAt_isSome {cs : List ℚ} {i : ℕ} (h : i < cs.length) : (histAt cs i).isSome := by
  unfold histAt
  obtain ⟨m, hm⟩ := Option.isSome_iff_exists.mp (macdAt_isSome h)
  obtain ⟨s, hs⟩ := Option.isSome_iff_exists.mp (signalAt_isSome h)
  rw [hm, hs]
  rfl

lemma lowerAt_isSome_iff {sqrtFn : ℚ → ℚ} {cs : List ℚ} {i : ℕ} (h : i < cs.length) :
    (lowerAt sqrtFn cs i).isSome ↔ 19 ≤ i := by
  unfold lowerAt
  rcases hm : SMA20At cs i with _ | m <;> rcases hv : rollVar 20 (closeAt cs) i with _ | v
  · simp only [Option.isSome_none, Bool.false_eq_true, false_iff]
    intro h19
    have := (closeRollMean_isSome_iff (n := 20) h).mpr (by omega)
    rw [SMA20At] at hm
    rw [hm] at this
    simp at this
  · simp only [Option.isSome_none, Bool.false_eq_true, false_iff]
    intro h19
    have := (closeRollMean_isSome_iff (n := 20) h).mpr (by omega)
    rw [SMA20At] at hm
    rw [hm] at this
    simp at this
  · simp only [Option.isSome_none, Bool.false_eq_true, false_iff]
    intro h19
    have hvs : (rollVar 20 (closeAt cs) i).isSome := by
      rw [rollVar_isSome_iff]
      refine ⟨by omega, fun j hj => closeAt_isSome.mpr ?_⟩
      have := windowList_le (by omega) hj
      omega
    rw [hv] at hvs
    simp at hvs
  · simp only [Option.isSome_some, true_iff]
    have := (closeRollMean_isSome_iff (n := 20) h).mp (by rw [← SMA20At, hm]; rfl)
    omega

lemma SMA20At_isSome_iff {cs : List ℚ} {i : ℕ} (h : i < cs.length) :
    (SMA20At cs i).isSome ↔ 19 ≤ i := by
  unfold SMA20At
  rw [closeRollMean_isSome_iff h]
  omega

lemma rollMean_congr {n i : ℕ} {f g : ℕ → Option ℚ} (h : ∀ j ≤ i, f j = g j) :
    rollMean n f i = rollMean n g i := by
  by_cases hn : n ≤ i + 1
  · have hw : ∀ j ∈ windowList n i, f j = g j := fun j hj => h j (windowList_le hn hj)
    have hmap : (windowList n i).map f = (windowList n i).map g := List.map_congr_left hw
    have hcond : (n ≤ i + 1 ∧ ∀ j ∈ windowList n i, (f j).isSome) ↔
        (n ≤ i + 1 ∧ ∀ j ∈ windowList n i, (g j).isSome) := by
      constructor <;> rintro ⟨h1, h2⟩ <;> refine ⟨h1, fun j hj => ?_⟩
      · rw [← hw j hj]
        exact h2 j hj
      · rw [hw j hj]
        exact h2 j hj
    unfold rollMean
    rw [if_congr hcond (by rw [hmap]) rfl]
  · unfold rollMean
    rw [if_neg (fun hc => hn hc.1), if_neg (fun hc => hn hc.1)]

lemma rollVar_congr {n i : ℕ} {f g : ℕ → Option ℚ} (h : ∀ j ≤ i, f j = g j) :
    rollVar n f i = rollVar n g i := by
  by_cases hn : n ≤ i + 1
  · have hw : ∀ j ∈ windowList n i, f j = g j := fun j hj => h j (windowList_le hn hj)
    have hmap : (windowList n i).map f = (windowList n i).map g := List.map_congr_left hw
    have hcond : (n ≤ i + 1 ∧ ∀ j ∈ windowList n i, (f j).isSome) ↔
        (n ≤ i + 1 ∧ ∀ j ∈ windowList n i, (g j).isSome) := by
      constructor <;> rintro ⟨h1, h2⟩ <;> refine ⟨h1, fun j hj => ?_⟩
      · rw [← hw j hj]
        exact h2 j hj
      · rw [hw j hj]
        exact h2 j hj
    unfold rollVar
    rw [if_congr hcond (by rw [hmap]) rfl]
  · unfold rollVar
    rw [if_neg (fun hc => hn hc.1), if_neg (fun hc => hn hc.1)]

lemma emaAt_congr {a : ℚ} {f g : ℕ → Option ℚ} :
    ∀ i, (∀ j, j ≤ i → f j = g j) → emaAt a f i = emaAt a g i
  | 0, h => by
    rw [emaAt, emaAt, h 0 (le_refl 0)]
  | i + 1, h => by
    rw [emaAt, emaAt, h (i + 1) (le_refl _),
      emaAt_congr i (fun j hj => h j (le_trans hj (Nat.le_succ i)))]

lemma closeAt_append {cs ext : List ℚ} {j : ℕ} (h : j < cs.length) :
    closeAt (cs ++ ext) j = closeAt cs j := by
  unfold closeAt
  exact List.getElem?_append_left h

lemma deltaAt_append {cs ext : List ℚ} {j : ℕ} (h : j < cs.length) :
    deltaAt (cs ++ ext) j = deltaAt cs j := by
  unfold deltaAt
  rw [closeAt_append h, closeAt_append (show j - 1 < cs.length by omega)]

lemma SMA20At_append {cs ext : List ℚ} {i : ℕ} (h : i < cs.length) :
    SMA20At (cs ++ ext) i = SMA20At cs i :=
  rollMean_congr (fun j hj => closeAt_append (by omega))

lemma SMA60At_append {cs ext : List ℚ} {i : ℕ} (h : i < cs.length) :
    SMA60At (cs ++ ext) i = SMA60At cs i :=
  rollMean_congr (fun j hj => closeAt_append (by omega))

lemma lowerAt_append {sqrtFn : ℚ → ℚ} {cs ext : List ℚ} {i : ℕ} (h : i < cs.length) :
    lowerAt sqrtFn (cs ++ ext) i = lowerAt sqrtFn cs i := by
  unfold lowerAt
  rw [SMA20At_append h, rollVar_congr (fun j hj => closeAt_append (by omega))]

lemma gainAt_append {cs ext : List ℚ} {i : ℕ} (h : i < cs.length) :
    gainAt (cs ++ ext) i = gainAt cs i :=
  rollMean_congr (fun j hj => by rw [deltaAt_append (by omega)])

lemma lossAt_append {cs ext : List ℚ} {i : ℕ} (h : i < cs.length) :
    lossAt (cs ++ ext) i = lossAt cs i := by
  unfold lossAt
  rw [rollMean_congr (fun j hj => by rw [deltaAt_append (show j < cs.length by omega)])]

lemma rsiAt_append {cs ext : List ℚ} {i : ℕ} (h : i < cs.length) :
    rsiAt (cs ++ ext) i = rsiAt cs i := by
  unfold rsiAt
  rw [gainAt_append h, lossAt_append h]

lemma macdAt_append {cs ext : List ℚ} {i : ℕ} (h : i < cs.length) :
    macdAt (cs ++ ext) i = macdAt cs i := by
  unfold macdAt
  rw [emaAt_congr i (fun j hj => closeAt_append (show j < cs.length by omega)),
    emaAt_congr i (fun j hj => closeAt_append (show j < cs.length by omega))]

lemma signalAt_append {cs ext : List ℚ} {i : ℕ} (h : i < cs.length) :
    signalAt (cs ++ ext) i = signalAt cs i := by
  unfold signalAt
  rw [emaAt_congr i (fun j hj => macdAt_append (lt_of_le_of_lt hj h))]

lemma histAt_append {cs ext : List ℚ} {i : ℕ} (h : i < cs.length) :
    histAt (cs ++ ext) i = histAt cs i := by
  unfold histAt
  rw [macdAt_append h, signalAt_append h]

lemma list_sum_nonpos {l : List ℚ} (h : ∀ x ∈ l, x ≤ 0) : l.sum ≤ 0 := by
  induction l with
  | nil => simp
  | cons a t ih =>
    simp only [List.sum_cons]
    have ha := h a (by simp)
    have ht := ih (fun x hx => h x (by simp [hx]))
    linarith

lemma gainAt_nonneg {cs : List ℚ} {i : ℕ} {g : ℚ} (h : gainAt cs i = some g) : 0 ≤ g := by
  unfold gainAt rollMean at h
  split at h
  · injection h with h
    subst h
    refine div_nonneg (List.sum_nonneg ?_) (by positivity)
    intro x hx
    rw [List.mem_filterMap] at hx
    obtain ⟨o, ho, hox⟩ := hx
    rw [List.mem_map] at ho
    obtain ⟨j, hj, rfl⟩ := ho
    rcases hd : deltaAt cs j with _ | d
    · rw [hd] at hox
      simp at hox
    · rw [hd] at hox
      simp only [Option.map_some', id_eq] at hox
      injection hox with hox
      rw [← hox]
      exact le_max_right d 0
  · cases h

lemma lossAt_nonneg {cs : List ℚ} {i : ℕ} {l : ℚ} (h : lossAt cs i = some l) : 0 ≤ l := by
  unfold lossAt at h
  rcases hm : rollMean 14 (fun j => (deltaAt cs j).map (fun d => min d 0)) i with _ | m
  · rw [hm] at h
    cases h
  · rw [hm] at h
    simp only [Option.map_some'] at h
    injection h with h
    have hm0 : m ≤ 0 := by
      unfold rollMean at hm
      split at hm
      · injection hm with hm
        subst hm
        have hsum : (((windowList 14 i).map
            (fun j => (deltaAt cs j).map (fun d => min d 0))).filterMap id).sum ≤ 0 := by
          apply list_sum_nonpos
          intro x hx
          rw [List.mem_filterMap] at hx
          obtain ⟨o, ho, hox⟩ := hx
          rw [List.mem_map] at ho
          obtain ⟨j, hj, rfl⟩ := ho
          rcases hd : deltaAt cs j with _ | d
          · rw [hd] at hox
            simp at hox
          · rw [hd] at hox
            simp only [Option.map_some', id_eq] at hox
            injection hox with hox
            rw [← hox]
            exact min_le_right d 0
        have h14 : (0:ℚ) < (14:ℕ) := by norm_num
        exact div_nonpos_of_nonpos_of_nonneg hsum h14.le
      · cases hm
    rw [← h]
    linarith

lemma closeAt_replicate {n : ℕ} {c : ℚ} {j : ℕ} (h : j < n) :
    closeAt (List.replicate n c) j = some c := by
  simp [closeAt, h]

lemma deltaAt_replicate {n : ℕ} {c : ℚ} {j : ℕ} (h1 : 1 ≤ j) (h2 : j < n) :
    deltaAt (List.replicate n c) j = some 0 := by
  unfold deltaAt
  rw [if_neg (by omega), closeAt_replicate h2,
    closeAt_replicate (show j - 1 < n by omega)]
  simp

lemma gainAt_flat {n : ℕ} {c : ℚ} {j : ℕ} (h14 : 14 ≤ j) (hjn : j < n) :
    gainAt (List.replicate n c) j = some 0 := by
  unfold gainAt rollMean
  rw [if_pos]
  · have hz : (((windowList 14 j).map
        (fun k => (deltaAt (List.replicate n c) k).map (fun d => max d 0))).filterMap id).sum
        = 0 := by
      apply List.sum_eq_zero
      intro x hx
      rw [List.mem_filterMap] at hx
      obtain ⟨o, ho, hox⟩ := hx
      rw [List.mem_map] at ho
      obtain ⟨k, hk, rfl⟩ := ho
      obtain ⟨t, ht, rfl⟩ := mem_windowList.mp hk
      rw [deltaAt_replicate (by omega) (by omega)] at hox
      simp only [Option.map_some', id_eq] at hox
      injection hox with hox
      rw [← hox]
      simp
    rw [hz]
    simp
  · refine ⟨by omega, fun k hk => ?_⟩
    obtain ⟨t, ht, rfl⟩ := mem_windowList.mp hk
    simp only [Option.isSome_map', deltaAt_isSome, List.length_replicate]
    omega

lemma lossAt_flat {n : ℕ} {c : ℚ} {j : ℕ} (h14 : 14 ≤ j) (hjn : j < n) :
    lossAt (List.replicate n c) j = some 0 := by
  unfold lossAt rollMean
  rw [if_pos]
  · have hz : (((windowList 14 j).map
        (fun k => (deltaAt (List.replicate n c) k).map (fun d => min d 0))).filterMap id).sum
        = 0 := by
      apply List.sum_eq_zero
      intro x hx
      rw [List.mem_filterMap] at hx
      obtain ⟨o, ho, hox⟩ := hx
      rw [List.mem_map] at ho
      obtain ⟨k, hk, rfl⟩ := ho
      obtain ⟨t, ht, rfl⟩ := mem_windowList.mp hk
      rw [deltaAt_replicate (by omega) (by omega)] at hox
      simp only [Option.map_some', id_eq] at hox
      injection hox with hox
      rw [← hox]
      simp
    rw [hz]
    simp
  · refine ⟨by omega, fun k hk => ?_⟩
    obtain ⟨t, ht, rfl⟩ := mem_windowList.mp hk
    simp only [Option.isSome_map', deltaAt_isSome, List.length_replicate]
    omega

lemma rsiAt_flat {n : ℕ} {c : ℚ} {j : ℕ} (h14 : 14 ≤ j) (hjn : j < n) :
    rsiAt (List.replicate n c) j = some 0 := by
  have h1 : rsiAt (List.replicate n c) j = some (100 - 100 / (1 + 0 / (0 + rsiEps))) := by
    unfold rsiAt
    rw [gainAt_flat h14 hjn, lossAt_flat h14 hjn]
  rw [h1]
  norm_num [rsiEps]

lemma enrich_length (sqrtFn : ℚ → ℚ) (cs : List ℚ) : (enrich sqrtFn cs).length = cs.length := by
  simp [enrich]

lemma enrich_getD {sqrtFn : ℚ → ℚ} {cs : List ℚ} {i : ℕ} (h : i < cs.length) :
    (enrich sqrtFn cs).getD i dummyRow =
      { close := cs.getD i 0
        rsi := rsiAt cs i
        hist := histAt cs i
        lower := lowerAt sqrtFn cs i
        sma20 := SMA20At cs i
        sma60 := SMA60At cs i } := by
  unfold enrich
  rw [List.getD_eq_getElem?_getD, List.getElem?_map, List.getElem?_range h]
  rfl

lemma getStrategySuggestion_eq_table (rows : List EnrichedRow) (h : 26 ≤ rows.length) :
    getStrategySuggestion (some rows) =
      specRuleTable (rows.getD (rows.length - 1) dummyRow)
        (rows.getD (rows.length - 2) dummyRow) := by
  have hg : ¬((rows.isEmpty : Prop) ∨ rows.length < 26) := by
    rintro (he | hl)
    · rw [List.isEmpty_iff_length_eq_zero] at he
      omega
    · omega
  show (if (rows.isEmpty : Prop) ∨ rows.length < 26 then insufficientSignal
      else specRuleTable (rows.getD (rows.length - 1) dummyRow)
        (rows.getD (rows.length - 2) dummyRow)) =
    specRuleTable (rows.getD (rows.length - 1) dummyRow) (rows.getD (rows.length - 2) dummyRow)
  rw [if_neg hg]

lemma specRuleTable_mem (lastRow prevRow : EnrichedRow) :
    specRuleTable lastRow prevRow ∈
      [panicSignal, goldenSignal, overheatedSignal, bullishSignal, consolidatingSignal] := by
  unfold specRuleTable
  split
  · simp
  split
  · simp
  split
  · simp
  split
  · simp
  · simp

lemma specRuleTable_panic {lastRow prevRow : EnrichedRow} {r : ℚ}
    (hr : lastRow.rsi = some r) (h25 : r < 25) :
    specRuleTable lastRow prevRow = panicSignal := by
  have hc : oLt lastRow.rsi (some 25) = true := by
    rw [hr]
    simp only [oLt, decide_eq_true_eq]
    exact h25
  unfold specRuleTable
  rw [if_pos hc]

lemma flat30_suggestion : getStrategySuggestion (some (enrich id flat30)) = panicSignal := by
  have hlen : (enrich id flat30).length = 30 := by
    rw [enrich_length]
    simp [flat30]
  have h26 : 26 ≤ (enrich id flat30).length := by omega
  rw [getStrategySuggestion_eq_table _ h26, hlen]
  show specRuleTable ((enrich id flat30).getD 29 dummyRow)
    ((enrich id flat30).getD 28 dummyRow) = panicSignal
  apply specRuleTable_panic (r := 0)
  · rw [enrich_getD (show (29:ℕ) < flat30.length by simp [flat30])]
    show rsiAt flat30 29 = some 0
    exact rsiAt_flat (by norm_num) (by simp [flat30])
  · norm_num

/-- C1: on an enriched series of at least 26 bars the classifier realises
exactly the spec's decision table (panic, golden buy, overheated, bullish
continuation, consolidating — first match wins, evaluated on the last and
second-to-last rows), and always answers with one label of that closed
five-label set. -/
theorem classifier_first_match (rows : List EnrichedRow) (h : 26 ≤ rows.length) :
    getStrategySuggestion (some rows) =
      specRuleTable (rows.getD (rows.length - 1) dummyRow)
        (rows.getD (rows.length - 2) dummyRow) ∧
    (getStrategySuggestion (some rows)).label ∈
      ["極度恐慌", "黃金買訊", "高檔過熱", "多頭續抱", "觀望整理"] := by
  have h1 := getStrategySuggestion_eq_table rows h
  refine ⟨h1, ?_⟩
  rw [h1]
  have h2 := specRuleTable_mem (rows.getD (rows.length - 1) dummyRow)
    (rows.getD (rows.length - 2) dummyRow)
  simp only [List.mem_cons, List.not_mem_nil, or_false] at h2
  rcases h2 with h2 | h2 | h2 | h2 | h2 <;> rw [h2] <;> decide

/-- Witness for C1 at a concrete 26-row frame. -/
theorem classifier_first_match_witness :
    (getStrategySuggestion (some (List.replicate 26 dummyRow)) =
      specRuleTable
        ((List.replicate 26 dummyRow).getD ((List.replicate 26 dummyRow).length - 1) dummyRow)
        ((List.replicate 26 dummyRow).getD ((List.replicate 26 dummyRow).length - 2) dummyRow)) ∧
    (getStrategySuggestion (some (List.replicate 26 dummyRow))).label ∈
      ["極度恐慌", "黃金買訊", "高檔過熱", "多頭續抱", "觀望整理"] :=
  classifier_first_match (List.replicate 26 dummyRow) (by decide)

/-- C2: any frame shorter than 26 rows is mapped to the "insufficient
data" tuple with its fixed label, color, html and note, whatever the
row contents; the classifier is a total function, so no error is
possible. -/
theorem short_input_insufficient (rows : List EnrichedRow) (h : rows.length < 26) :
    getStrategySuggestion (some rows) = insufficientSignal ∧
    insufficientSignal.label = "資料不足" ∧ insufficientSignal.color = "#9e9e9e" ∧
    insufficientSignal.html = "<span>資料不足以產生訊號</span>" ∧
    insufficientSignal.note = "" := by
  refine ⟨?_, rfl, rfl, rfl, rfl⟩
  show (if (rows.isEmpty : Prop) ∨ rows.length < 26 then insufficientSignal
      else specRuleTable (rows.getD (rows.length - 1) dummyRow)
        (rows.getD (rows.length - 2) dummyRow)) = insufficientSignal
  rw [if_pos (Or.inr h)]

/-- Witness for C2 at the empty frame. -/
theorem short_input_insufficient_witness :
    getStrategySuggestion (some ([] : List EnrichedRow)) = insufficientSignal ∧
    insufficientSignal.label = "資料不足" ∧ insufficientSignal.color = "#9e9e9e" ∧
    insufficientSignal.html = "<span>資料不足以產生訊號</span>" ∧
    insufficientSignal.note = "" :=
  short_input_insufficient [] (by decide)

/-- C3: every defined rsi value lies in the interval [0, 100] (for any
series, in particular any series of non-negative closes). -/
theorem rsi_in_unit_range (cs : List ℚ) (i : ℕ) (r : ℚ)
    (hpos : ∀ x ∈ cs, (0:ℚ) ≤ x) (hr : rsiAt cs i = some r) :
    0 ≤ r ∧ r ≤ 100 := by
  rcases hg : gainAt cs i with _ | g
  · unfold rsiAt at hr
    rw [hg] at hr
    rcases hl : lossAt cs i with _ | l <;> rw [hl] at hr <;> cases hr
  rcases hl : lossAt cs i with _ | l
  · unfold rsiAt at hr
    rw [hg, hl] at hr
    cases hr
  have hEq : rsiAt cs i = some (100 - 100 / (1 + g / (l + rsiEps))) := by
    unfold rsiAt
    rw [hg, hl]
  rw [hEq] at hr
  injection hr with hr
  have hg0 : 0 ≤ g := gainAt_nonneg hg
  have hl0 : 0 ≤ l := lossAt_nonneg hl
  have heps : (0:ℚ) < rsiEps := by norm_num [rsiEps]
  have hden : (0:ℚ) < l + rsiEps := by linarith
  have hx0 : 0 ≤ g / (l + rsiEps) := div_nonneg hg0 hden.le
  have hq0 : 0 < 100 / (1 + g / (l + rsiEps)) := by positivity
  have hq1 : 100 / (1 + g / (l + rsiEps)) ≤ 100 := div_le_self (by norm_num) (by linarith)
  constructor <;> rw [← hr] <;> linarith

/-- Witness for C3 on the flat 15-bar series, where rsi is 0. -/
theorem rsi_in_unit_range_witness :
    (∀ x ∈ flat15, (0:ℚ) ≤ x) ∧ ((0:ℚ) ≤ 0 ∧ (0:ℚ) ≤ 100) :=
  ⟨by decide, rsi_in_unit_range flat15 14 0 (by decide)
    (rsiAt_flat (by norm_num) (by norm_num))⟩

/-- C4 counterexample: on the 30-bar flat series the classifier does NOT
answer "consolidating / no clear signal" (觀望整理), contrary to the
claim — the flat series has gain = loss = 0, hence rsi = 0 < 25, and the
panic rule fires first. -/
theorem flat_series_not_consolidating :
    (getStrategySuggestion (some (enrich id flat30))).label ≠ "觀望整理" := by
  rw [flat30_suggestion]
  decide

/-- C4 (amended): on a 30-bar flat series the rsi at bar 14 is the
defined finite number 0 (the epsilon keeps the division sound when
gain = loss = 0), and the classifier returns the "extreme panic" label
(極度恐慌), because rsi = 0 < 25 makes the first rule fire. -/
theorem flat_series_panic :
    rsiAt flat30 14 = some 0 ∧
    (getStrategySuggestion (some (enrich id flat30))).label = "極度恐慌" := by
  refine ⟨rsiAt_flat (by norm_num) (by simp [flat30]), ?_⟩
  rw [flat30_suggestion]
  rfl


/-- C5 counterexample: on the flat 15-bar series the rolling gain and
loss at bar 14 are both exactly 0, yet the computed rsi is not 100 (it
is 0): `100 - 100/(1 + 0/(0+ε)) = 0`. -/
theorem flat_rsi_not_hundred :
    gainAt flat15 14 = some 0 ∧ lossAt flat15 14 = some 0 ∧
    rsiAt flat15 14 ≠ some 100 := by
  refine ⟨gainAt_flat (by norm_num) (by norm_num),
    lossAt_flat (by norm_num) (by norm_num), ?_⟩
  have h0 : rsiAt flat15 14 = some 0 := rsiAt_flat (by norm_num) (by norm_num)
  rw [h0]
  decide

/-- C5 (amended): when the rolling loss is exactly zero the rsi equals
`100·g/(g+ε)` where `g` is the rolling gain; for `g = 0` (both zero)
this is 0, not 100; for positive gain it stays strictly below 100 and
saturates near 100 (above 99.99 as soon as `g ≥ 1/1000`). -/
theorem rsi_zero_loss (cs : List ℚ) (i : ℕ) (g : ℚ)
    (hg : gainAt cs i = some g) (hl : lossAt cs i = some 0) :
    rsiAt cs i = some (100 * g / (g + rsiEps)) ∧
    (g = 0 → 100 * g / (g + rsiEps) = 0) ∧
    (0 < g → 100 * g / (g + rsiEps) < 100) ∧
    (1 / 1000 ≤ g → (9999:ℚ) / 100 < 100 * g / (g + rsiEps)) := by
  have hg0 : 0 ≤ g := gainAt_nonneg hg
  have heps : (0:ℚ) < rsiEps := by norm_num [rsiEps]
  have hden : (0:ℚ) < g + rsiEps := by linarith
  refine ⟨?_, ?_, ?_, ?_⟩
  · have h1 : rsiAt cs i = some (100 - 100 / (1 + g / (0 + rsiEps))) := by
      unfold rsiAt
      rw [hg, hl]
    rw [h1]
    congr 1
    rw [zero_add]
    have hne : rsiEps ≠ 0 := ne_of_gt heps
    have hdne : g + rsiEps ≠ 0 := ne_of_gt hden
    have hdne' : rsiEps + g ≠ 0 := by
      rw [add_comm]
      exact hdne
    field_simp
    ring
  · rintro rfl
    simp
  · intro hgpos
    rw [div_lt_iff₀ hden]
    nlinarith
  · intro hge
    rw [lt_div_iff₀ hden]
    have he : rsiEps = 1 / 1000000000 := rfl
    rw [he]
    nlinarith

/-- Witness for C5 (amended) on the rising 16-bar series: gain 1,
loss 0, rsi `100/(1+ε)`. -/
theorem rsi_zero_loss_witness :
    (gainAt rising16 14 = some 1 ∧ lossAt rising16 14 = some 0) ∧
    (rsiAt rising16 14 = some (100 * 1 / (1 + rsiEps)) ∧
     ((1:ℚ) = 0 → 100 * 1 / (1 + rsiEps) = 0) ∧
     ((0:ℚ) < 1 → 100 * 1 / (1 + rsiEps) < 100) ∧
     ((1:ℚ) / 1000 ≤ 1 → (9999:ℚ) / 100 < 100 * 1 / (1 + rsiEps))) := by
  have hg : gainAt rising16 14 = some 1 := by
    norm_num [gainAt, rollMean, windowList, deltaAt, closeAt, rising16,
      List.range_succ, List.filterMap_cons]
  have hl : lossAt rising16 14 = some 0 := by
    norm_num [lossAt, rollMean, windowList, deltaAt, closeAt, rising16,
      List.range_succ, List.filterMap_cons]
  exact ⟨⟨hg, hl⟩, rsi_zero_loss rising16 14 1 hg hl⟩

/-- C6 counterexample: at index 13 (13 prior bars exist) the rsi is
still undefined — the first delta is NaN, so the 14-bar rolling mean
needs indices 1..14 and rsi first appears at index 14, not 13. -/
theorem rsi_undefined_at_13 :
    13 < flat15.length ∧ rsiAt flat15 13 = none := by
  exact ⟨by decide, by decide⟩

/-- C6 (amended): within the series, sma_short and lower_band are
defined exactly from index 19 on, rsi exactly from index 14 on (not 13:
the first delta is undefined), and the MACD family (macd_line,
signal_line, histogram) from the very first bar. -/
theorem definedness_thresholds (sqrtFn : ℚ → ℚ) (cs : List ℚ) (i : ℕ)
    (h : i < cs.length) :
    ((SMA20At cs i).isSome ↔ 19 ≤ i) ∧
    ((lowerAt sqrtFn cs i).isSome ↔ 19 ≤ i) ∧
    ((rsiAt cs i).isSome ↔ 14 ≤ i) ∧
    (macdAt cs i).isSome ∧ (signalAt cs i).isSome ∧ (histAt cs i).isSome :=
  ⟨SMA20At_isSome_iff h, lowerAt_isSome_iff h, rsiAt_isSome_iff h,
   macdAt_isSome h, signalAt_isSome h, histAt_isSome h⟩

/-- Witness for C6 (amended) on a one-bar series at index 0. -/
theorem definedness_thresholds_witness :
    ((SMA20At [(100:ℚ)] 0).isSome ↔ 19 ≤ 0) ∧
    ((lowerAt id [(100:ℚ)] 0).isSome ↔ 19 ≤ 0) ∧
    ((rsiAt [(100:ℚ)] 0).isSome ↔ 14 ≤ 0) ∧
    (macdAt [(100:ℚ)] 0).isSome ∧ (signalAt [(100:ℚ)] 0).isSome ∧
    (histAt [(100:ℚ)] 0).isSome :=
  definedness_thresholds id [(100:ℚ)] 0 (by decide)

/-- C7: wherever the macd line and the signal line are defined, the
histogram equals their difference exactly (macdAt is the 12-EMA minus
the 26-EMA of close, signalAt its 9-EMA, each seeded with its first
sample — see the definitions). -/
theorem hist_eq_macd_sub_signal (cs : List ℚ) (i : ℕ) (m s : ℚ)
    (hm : macdAt cs i = some m) (hs : signalAt cs i = some s) :
    histAt cs i = some (m - s) := by
  unfold histAt
  rw [hm, hs]

/-- Witness for C7 on the two-bar series [1, 2] at index 1. -/
theorem hist_eq_macd_sub_signal_witness :
    (macdAt [(1:ℚ), 2] 1 = some (28/351) ∧ signalAt [(1:ℚ), 2] 1 = some (28/1755)) ∧
    histAt [(1:ℚ), 2] 1 = some (28/351 - 28/1755) := by
  have hm : macdAt [(1:ℚ), 2] 1 = some (28/351) := by
    norm_num [macdAt, emaAt, emaAlpha, closeAt]
  have hs : signalAt [(1:ℚ), 2] 1 = some (28/1755) := by
    norm_num [signalAt, macdAt, emaAt, emaAlpha, closeAt]
  exact ⟨⟨hm, hs⟩, hist_eq_macd_sub_signal [(1:ℚ), 2] 1 (28/351) (28/1755) hm hs⟩

/-- C8: the pipeline is causal — appending bars to the end of the series
changes no derived value at any index of the original series. -/
theorem indicators_causal (sqrtFn : ℚ → ℚ) (cs ext : List ℚ) (i : ℕ)
    (h : i < cs.length) :
    SMA20At (cs ++ ext) i = SMA20At cs i ∧
    SMA60At (cs ++ ext) i = SMA60At cs i ∧
    lowerAt sqrtFn (cs ++ ext) i = lowerAt sqrtFn cs i ∧
    rsiAt (cs ++ ext) i = rsiAt cs i ∧
    macdAt (cs ++ ext) i = macdAt cs i ∧
    signalAt (cs ++ ext) i = signalAt cs i ∧
    histAt (cs ++ ext) i = histAt cs i :=
  ⟨SMA20At_append h, SMA60At_append h, lowerAt_append h, rsiAt_append h,
   macdAt_append h, signalAt_append h, histAt_append h⟩

/-- Witness for C8: appending [5] to [1, 2] changes nothing at index 1. -/
theorem indicators_causal_witness :
    SMA20At ([(1:ℚ), 2] ++ [5]) 1 = SMA20At [(1:ℚ), 2] 1 ∧
    SMA60At ([(1:ℚ), 2] ++ [5]) 1 = SMA60At [(1:ℚ), 2] 1 ∧
    lowerAt id ([(1:ℚ), 2] ++ [5]) 1 = lowerAt id [(1:ℚ), 2] 1 ∧
    rsiAt ([(1:ℚ), 2] ++ [5]) 1 = rsiAt [(1:ℚ), 2] 1 ∧
    macdAt ([(1:ℚ), 2] ++ [5]) 1 = macdAt [(1:ℚ), 2] 1 ∧
    signalAt ([(1:ℚ), 2] ++ [5]) 1 = signalAt [(1:ℚ), 2] 1 ∧
    histAt ([(1:ℚ), 2] ++ [5]) 1 = histAt [(1:ℚ), 2] 1 :=
  indicators_causal id [(1:ℚ), 2] [5] 1 (by decide)

/-- C9: a defined rolling loss is non-negative (a mean of non-negative
clipped moves), so the rsi denominator `loss + ε` is strictly positive —
the division of line 114 can never be a division by zero. -/
theorem rsi_denominator_pos (cs : List ℚ) (i : ℕ) (l : ℚ)
    (hl : lossAt cs i = some l) :
    0 ≤ l ∧ 0 < l + rsiEps := by
  have h0 := lossAt_nonneg hl
  refine ⟨h0, ?_⟩
  have heps : (0:ℚ) < rsiEps := by norm_num [rsiEps]
  linarith

/-- Witness for C9 at the flat series, where the loss is exactly 0. -/
theorem rsi_denominator_pos_witness :
    lossAt flat15 14 = some 0 ∧ ((0:ℚ) ≤ 0 ∧ (0:ℚ) < 0 + rsiEps) := by
  have hl : lossAt flat15 14 = some 0 := lossAt_flat (by norm_num) (by norm_num)
  exact ⟨hl, rsi_denominator_pos flat15 14 0 hl⟩

/-- C10: an absent frame (failed fetch, `None`) and an empty frame both
yield the very same "insufficient data" tuple as any frame shorter than
26 rows; no case raises. -/
theorem absent_input_insufficient :
    getStrategySuggestion none = insufficientSignal ∧
    getStrategySuggestion (some ([] : List EnrichedRow)) = insufficientSignal ∧
    ∀ rows : List EnrichedRow, rows.length < 26 →
      getStrategySuggestion (some rows) = insufficientSignal := by
  refine ⟨rfl, by decide, ?_⟩
  intro rows h
  show (if (rows.isEmpty : Prop) ∨ rows.length < 26 then insufficientSignal
      else specRuleTable (rows.getD (rows.length - 1) dummyRow)
        (rows.getD (rows.length - 2) dummyRow)) = insufficientSignal
  rw [if_pos (Or.inr h)]

/-- Witness for C10 at a one-row frame. -/
theorem absent_input_insufficient_witness :
    getStrategySuggestion (some [dummyRow]) = insufficientSignal :=
  absent_input_insufficient.2.2 [dummyRow] (by decide)
